import Mathlib

/-!
Shallow embedding of the S3 image viewer core (src/src/App.jsx): the
Synchronizer (loadImagesFromS3), the View Projector (sortImages,
filterImages, displayImages) and the single-delete handler (handleDelete).

Modelling conventions:
* JS millisecond clock values (Date.now(), Date#getTime(), Date
  subtraction) are Int.
* JS strings are Lean Strings; toLowerCase / endsWith / split are
  re-implemented structurally over String.data so the kernel can
  evaluate them.
* Network effects are explicit arguments: the listing response is an
  Except (with .error standing for a thrown exception), getSignedUrl is
  a function returning Except per key, the delete call result is an
  Except.  Promise.all over the signing batch is a traversal that fails
  as a whole when any element fails.
* React state (images, selectedImage, stats, error, isLoading) is an
  AppState record; each handler is a state transformer.  loadImagesFromS3
  is split into its synchronous prefix loadImagesBegin (setIsLoading(true);
  setError(null), which runs before the first await) and the continuation
  loadImagesFinish, because the intermediate state is observable.
* Local midnight (new Date().setHours(0,0,0,0)) depends on the runtime
  timezone and is passed in as the todayStart argument.
* String#localeCompare has no pure embedding; the name sort is
  parameterised by the ordering relation it induces.
* JS Array#sort is a stable sort; it is modelled by insertionSort, which
  is also stable, so both produce the same output for any comparator
  that is a total preorder.
-/

namespace S3Viewer

/-- One entry of the ListObjectsV2 response Contents array
(fields Key, LastModified, Size in the SDK). -/
structure S3Object where
  key : String
  lastModified : Int
  size : Nat
deriving DecidableEq, Repr

/-- The ListObjectsV2 response as far as the code and the pagination
contract are concerned.  The code reads only Contents; IsTruncated and
NextContinuationToken belong to the continuation-token contract of the
gateway. -/
structure ListResponse where
  contents : Option (List S3Object)
  isTruncated : Bool
  nextContinuationToken : Option String

/-- A paginated storage gateway: the page returned for a given
continuation token, none being the initial request (the code issues
ListObjectsV2Command with a Bucket and no ContinuationToken). -/
def Gateway := Option String → ListResponse

/-- One display record, as built inside loadImagesFromS3. -/
structure Image where
  id : String
  key : String
  url : String
  name : String
  timestamp : Int
  size : String
deriving DecidableEq, Repr

/-- The stats record: lastHour, today, total. -/
structure Stats where
  lastHour : Nat
  today : Nat
  total : Nat
deriving DecidableEq, Repr

/-- The React state touched by the embedded handlers. -/
structure AppState where
  images : List Image
  selectedImage : Option Image
  stats : Stats
  error : Option String
  isLoading : Bool
deriving DecidableEq, Repr

/-- JS String#toLowerCase, character by character (sufficient for the
extension check the code performs on it). -/
def jsToLower (s : String) : String := ⟨s.data.map Char.toLower⟩

/-- JS String#endsWith. -/
def jsEndsWith (s suff : String) : Bool := suff.data.isSuffixOf s.data

/-- Helper for jsSplit: accumulates the current segment (reversed). -/
def splitOnAux (sep : Char) : List Char → List Char → List (List Char)
  | [], acc => [acc.reverse]
  | c :: cs, acc =>
    if c = sep then acc.reverse :: splitOnAux sep cs []
    else splitOnAux sep cs (c :: acc)

/-- JS String#split with a one-character separator.  It never returns an
empty array, so the .pop() in lastSegment is total. -/
def jsSplit (s : String) (sep : Char) : List String :=
  (splitOnAux sep s.data []).map (fun cs => ⟨cs⟩)

/-- key.split(of "/").pop() — the display name of a record. -/
def lastSegment (k : String) : String := (jsSplit k '/').getLastD ""

/-- formatFileSize.  JS computes (bytes/1024).toFixed(1) with floats;
modelled as exact rounding of the quotient to the nearest tenth (ties
rounded up).  No claim depends on the rendered size string. -/
def formatFileSize (bytes : Nat) : String :=
  if bytes < 1024 then toString bytes ++ " B"
  else if bytes < 1024 * 1024 then
    let tenths := (bytes * 10 + 512) / 1024
    toString (tenths / 10) ++ "." ++ toString (tenths % 10) ++ " KB"
  else
    let tenths := (bytes * 10 + 524288) / 1048576
    toString (tenths / 10) ++ "." ++ toString (tenths % 10) ++ " MB"

/-- The extension filter inside loadImagesFromS3:
key = item.Key.toLowerCase(); key.endsWith(".jpg") || key.endsWith(".jpeg"). -/
def isJpegKey (k : String) : Bool :=
  let key := jsToLower k
  jsEndsWith key ".jpg" || jsEndsWith key ".jpeg"

/-- The record built for one retained object once its signed URL is
available (the object literal in the .map of loadImagesFromS3). -/
def mkImage (url : String) (item : S3Object) : Image :=
  { id := item.key
    key := item.key
    url := url
    name := lastSegment item.key
    timestamp := item.lastModified
    size := formatFileSize item.size }

/-- getSignedUrl for every retained object with Promise.all semantics:
the whole batch fails if any one signing call fails. -/
def signAll (sign : String → Except String String) :
    List S3Object → Except String (List Image)
  | [] => .ok []
  | item :: rest => do
    let url ← sign item.key
    let imgs ← signAll sign rest
    pure (mkImage url item :: imgs)

/-- imageList.sort((a, b) => b.timestamp - a.timestamp): stable sort,
newest first. -/
def sortNewestFirst (imgs : List Image) : List Image :=
  imgs.insertionSort (fun a b => b.timestamp ≤ a.timestamp)

/-- The stats block shared by loadImagesFromS3 and handleDelete:
now = Date.now(), oneHourAgo = now - 60*60*1000,
todayStart = new Date().setHours(0,0,0,0); both window counts use a
strict greater-than comparison. -/
def computeStats (imgs : List Image) (now todayStart : Int) : Stats :=
  let oneHourAgo := now - 60 * 60 * 1000
  { lastHour := (imgs.filter (fun img => oneHourAgo < img.timestamp)).length
    today := (imgs.filter (fun img => todayStart < img.timestamp)).length
    total := imgs.length }

/-- The error message set by the catch block of loadImagesFromS3. -/
def loadErrorMsg : String := "S3에서 이미지를 불러오는데 실패했습니다."

/-- The synchronous prefix of loadImagesFromS3, executed before the
first await: setIsLoading(true); setError(null). -/
def loadImagesBegin (s : AppState) : AppState :=
  { s with isLoading := true, error := none }

/-- The rest of loadImagesFromS3, from the listing await onward.  The
listing argument carries a thrown listing exception as .error; sign is
getSignedUrl per key. -/
def loadImagesFinish (s : AppState) (listing : Except String ListResponse)
    (sign : String → Except String String) (now todayStart : Int) : AppState :=
  match listing with
  | .error _ => { s with error := some loadErrorMsg, isLoading := false }
  | .ok response =>
    match response.contents with
    | none => { s with images := [], stats := ⟨0, 0, 0⟩, isLoading := false }
    | some contents =>
      if contents.length = 0 then
        { s with images := [], stats := ⟨0, 0, 0⟩, isLoading := false }
      else
        match signAll sign (contents.filter (fun item => isJpegKey item.key)) with
        | .error _ => { s with error := some loadErrorMsg, isLoading := false }
        | .ok imageList =>
          let sorted := sortNewestFirst imageList
          { s with images := sorted
                   stats := computeStats sorted now todayStart
                   isLoading := false }

/-- One full sync cycle (loadImagesFromS3). -/
def loadImagesFromS3 (s : AppState) (listing : Except String ListResponse)
    (sign : String → Except String String) (now todayStart : Int) : AppState :=
  loadImagesFinish (loadImagesBegin s) listing sign now todayStart

/-- Modelled from the spec: the pagination loop is absent from src.  The
spec says to repeatedly request continuation pages using the gateway
continuation-token contract until exhausted, accumulating all pages into
one set.  Fuel bounds the recursion. -/
def allPages (g : Gateway) : Nat → Option String → List S3Object
  | 0, _ => []
  | fuel + 1, tok =>
    let page := g tok
    let items := page.contents.getD []
    if page.isTruncated then
      match page.nextContinuationToken with
      | some t => items ++ allPages g fuel (some t)
      | none => items
    else items

/-- handleDelete.  confirmed is the result of the confirm() gate;
delResult is the outcome of the DeleteObjectCommand send; the catch
block only raises an alert, so a failed delete leaves the state as is.
The stats expressions are the ones written inline in handleDelete. -/
def handleDelete (s : AppState) (img : Image) (confirmed : Bool)
    (delResult : Except String Unit) (now todayStart : Int) : AppState :=
  if !confirmed then s
  else
    match delResult with
    | .error _ => s
    | .ok _ =>
      let newImages := s.images.filter (fun i => i.id ≠ img.id)
      let oneHourAgo := now - 60 * 60 * 1000
      { s with
        images := newImages
        stats :=
          { lastHour := (newImages.filter (fun i => oneHourAgo < i.timestamp)).length
            today := (newImages.filter (fun i => todayStart < i.timestamp)).length
            total := newImages.length }
        selectedImage :=
          match s.selectedImage with
          | some sel => if sel.id = img.id then none else some sel
          | none => none }

/-- sortImages.  The code copies the array and sorts the copy, so the
input is never modified; JS Array#sort is stable.  lc is the ordering
that a.name.localeCompare(b.name) induces (lc a b iff the comparator is
nonpositive on (a, b)). -/
def sortImages (lc : String → String → Prop) [dlc : DecidableRel lc]
    (sortBy : String) (imgs : List Image) : List Image :=
  if sortBy = "newest" then
    imgs.insertionSort (fun a b => b.timestamp ≤ a.timestamp)
  else if sortBy = "oldest" then
    imgs.insertionSort (fun a b => a.timestamp ≤ b.timestamp)
  else if sortBy = "name" then
    @List.insertionSort Image (fun a b => lc a.name b.name)
      (fun a b => dlc a.name b.name) imgs
  else imgs

/-- filterImages.  now is the const now = new Date() taken once per
call; the filter recognises the values today, week, month (plus the
early return for all); any other value falls through to true. -/
def filterImages (filterDate : String) (now : Int) (imgs : List Image) :
    List Image :=
  if filterDate = "all" then imgs
  else
    imgs.filter (fun img =>
      let diff := now - img.timestamp
      if filterDate = "today" then decide (diff < 24 * 60 * 60 * 1000)
      else if filterDate = "week" then decide (diff < 7 * 24 * 60 * 60 * 1000)
      else if filterDate = "month" then decide (diff < 30 * 24 * 60 * 60 * 1000)
      else true)

/-- displayImages = sortImages(filterImages(images)): the View Projector
project(collection, sortBy, filterDate). -/
def displayImages (lc : String → String → Prop) [DecidableRel lc]
    (sortBy filterDate : String) (now : Int) (imgs : List Image) : List Image :=
  sortImages lc sortBy (filterImages filterDate now imgs)

/-- The today count as the spec words it: records whose timestamp is at
or after local midnight (at-or-after, not strictly after). -/
def todayCountAtOrAfter (imgs : List Image) (todayStart : Int) : Nat :=
  (imgs.filter (fun img => todayStart ≤ img.timestamp)).length

end S3Viewer

namespace S3Viewer

/-! ### Shared helper lemmas and concrete fixtures -/

/-- An initial application state: no images, no selection, zero stats. -/
def emptyState : AppState := ⟨[], none, ⟨0, 0, 0⟩, none, false⟩

/-- With a signing function that always succeeds, the Promise.all batch
succeeds and yields one record per retained object, in listing order. -/
theorem signAll_ok_of_total (urlOf : String → String) (items : List S3Object) :
    signAll (fun k => .ok (urlOf k)) items
      = .ok (items.map (fun it => mkImage (urlOf it.key) it)) := by
  induction items with
  | nil => rfl
  | cons a t ih =>
    simp only [signAll, ih, List.map_cons]
    rfl

/-- Every record produced by a successful signing batch comes from one
of the listed objects, with a matching key. -/
theorem signAll_mem {sign : String → Except String String} :
    ∀ {items : List S3Object} {imgs : List Image},
      signAll sign items = .ok imgs → ∀ {img : Image}, img ∈ imgs →
      ∃ item ∈ items, ∃ url, sign item.key = .ok url ∧ img = mkImage url item := by
  intro items
  induction items with
  | nil =>
    intro imgs h img hm
    simp only [signAll] at h
    cases h
    cases hm
  | cons a t ih =>
    intro imgs h img hm
    simp only [signAll] at h
    cases hs : sign a.key with
    | error e => rw [hs] at h; cases h
    | ok url =>
      rw [hs] at h
      cases ht : signAll sign t with
      | error e => rw [ht] at h; cases h
      | ok rest =>
        rw [ht] at h
        cases h
        rcases List.mem_cons.mp hm with hhead | htail
        · exact ⟨a, List.mem_cons_self a t, url, hs, hhead⟩
        · obtain ⟨item, hit, u, hu, he⟩ := ih ht htail
          exact ⟨item, List.mem_cons_of_mem a hit, u, hu, he⟩

/-- Removing the records carrying one identifier that occurs exactly
once shortens the list by exactly one. -/
theorem length_filter_ne_id {l : List Image} {x : Image}
    (hmem : x ∈ l) (hnodup : (l.map Image.id).Nodup) :
    (l.filter (fun i => i.id ≠ x.id)).length + 1 = l.length := by
  induction l with
  | nil => cases hmem
  | cons a t ih =>
    rw [List.map_cons, List.nodup_cons] at hnodup
    obtain ⟨ha, ht⟩ := hnodup
    rw [List.filter_cons]
    by_cases hax : a.id = x.id
    · rw [if_neg (by simp [hax])]
      have hfilter : t.filter (fun i => i.id ≠ x.id) = t := by
        refine List.filter_eq_self.mpr ?_
        intro i hi
        simp only [ne_eq, decide_eq_true_eq]
        intro hix
        exact ha (List.mem_map.mpr ⟨i, hi, by rw [hix, hax]⟩)
      rw [hfilter, List.length_cons]
    · rw [if_pos (by simp [hax])]
      have hxt : x ∈ t := by
        rcases List.mem_cons.mp hmem with heq | hxt
        · exact absurd (by rw [heq]) hax
        · exact hxt
      have h := ih hxt ht
      simp only [List.length_cons]
      omega

/-- The filter pass treats any unrecognised filterDate value as
all-pass. -/
theorem filterImages_unrecognised (now : Int) (imgs : List Image) :
    filterImages "lastHour" now imgs = imgs := by
  show (if _ then _ else _) = imgs
  rw [if_neg (by decide)]
  simp

/-! ### C2 -/

/-- A record far older than one hour, used to refute the lastHour
filter claim. -/
def staleImg : Image :=
  { id := "x.jpg", key := "x.jpg", url := "u", name := "x.jpg",
    timestamp := 0, size := "1 B" }

/-- C2 counterexample: at now = 10^10 ms, projecting with
filterDate = lastHour and sortBy = oldest returns the record stamped at
0, which is far outside the one-hour window, so the projection does not
keep exactly the last-hour records. -/
theorem c2_counterexample :
    @displayImages (fun _ _ => True) (fun _ _ => .isTrue trivial)
        "oldest" "lastHour" 10000000000 [staleImg] = [staleImg] ∧
    ¬((10000000000 : Int) - staleImg.timestamp < 3600000) := by
  constructor
  · rw [displayImages, filterImages_unrecognised]
    rfl
  · decide

/-- C2 amended: filterDate = lastHour is not a value the filter pass
recognises, so it keeps every record: project(C, oldest, lastHour)
returns all of C, in ascending timestamp order. -/
theorem c2_lastHour_keeps_all (lc : String → String → Prop) [DecidableRel lc]
    (now : Int) (imgs : List Image) :
    (displayImages lc "oldest" "lastHour" now imgs).Perm imgs ∧
    List.Sorted (fun a b : Image => a.timestamp ≤ b.timestamp)
      (displayImages lc "oldest" "lastHour" now imgs) := by
  have hd : displayImages lc "oldest" "lastHour" now imgs
      = imgs.insertionSort (fun a b => a.timestamp ≤ b.timestamp) := by
    rw [displayImages, filterImages_unrecognised]
    rfl
  rw [hd]
  haveI : IsTotal Image (fun a b => a.timestamp ≤ b.timestamp) :=
    ⟨fun a b => le_total a.timestamp b.timestamp⟩
  haveI : IsTrans Image (fun a b => a.timestamp ≤ b.timestamp) :=
    ⟨fun _ _ _ hab hbc => le_trans hab hbc⟩
  exact ⟨List.perm_insertionSort _ imgs, List.sorted_insertionSort _ imgs⟩

/-! ### C3 -/

/-- A record stamped one hour before the epoch; with local midnight at
the epoch this is a yesterday record. -/
def yesterdayImg : Image :=
  { id := "y.jpg", key := "y.jpg", url := "u", name := "y.jpg",
    timestamp := -3600000, size := "1 B" }

/-- C3 counterexample: take local midnight at epoch time 0 and
now = 7,200,000 (02:00 local).  The record stamped -3,600,000 (23:00 of
the previous day) is before midnight, yet the today filter keeps it,
because the code uses a rolling 24-hour window. -/
theorem c3_counterexample :
    filterImages "today" 7200000 [yesterdayImg] = [yesterdayImg] ∧
    yesterdayImg.timestamp < 0 := by
  constructor
  · rfl
  · decide

/-- C3 amended: the today filter keeps exactly the records with
now - timestamp < 86,400,000 ms, a rolling 24-hour window independent
of local midnight. -/
theorem c3_today_rolling_window (now : Int) (imgs : List Image) (img : Image) :
    img ∈ filterImages "today" now imgs ↔
      img ∈ imgs ∧ now - img.timestamp < 24 * 60 * 60 * 1000 := by
  show img ∈ (if _ then _ else _) ↔ _
  rw [if_neg (by decide)]
  simp [List.mem_filter]

end S3Viewer

namespace S3Viewer

/-! ### C4 -/

/-- A state already carrying the fatal sync error. -/
def erroredState : AppState := ⟨[], none, ⟨0, 0, 0⟩, some loadErrorMsg, false⟩

/-- C4 counterexample: starting a new sync clears the error state
before anything is published — the synchronous prefix of
loadImagesFromS3 (setIsLoading(true); setError(null)) already leaves
error = none, with no successful publish having happened; a failing
cycle then re-establishes the error only at its end. -/
theorem c4_counterexample :
    erroredState.error = some loadErrorMsg ∧
    (loadImagesBegin erroredState).error = none ∧
    (loadImagesFromS3 erroredState (.error "network failure")
        (fun k => .ok k) 0 0).error = some loadErrorMsg :=
  ⟨rfl, rfl, rfl⟩

/-- C4 amended: every sync attempt clears the error state at its start,
before the listing call; a failing attempt — a thrown listing call or a
failed signing batch — re-establishes the error when it completes, and
a successful attempt (empty listing, all-filtered listing, or a fully
signed batch) leaves it cleared, so between completed sync cycles an
error persists until a cycle succeeds. -/
theorem c4_error_lifecycle (s : AppState) (listing : Except String ListResponse)
    (sign : String → Except String String) (now todayStart : Int) :
    (loadImagesBegin s).error = none ∧
    (∀ e, listing = .error e →
      (loadImagesFromS3 s listing sign now todayStart).error
        = some loadErrorMsg) ∧
    (∀ response contents e, listing = .ok response →
      response.contents = some contents → contents.length ≠ 0 →
      signAll sign (contents.filter (fun item => isJpegKey item.key))
        = .error e →
      (loadImagesFromS3 s listing sign now todayStart).error
        = some loadErrorMsg) ∧
    (∀ response, listing = .ok response → response.contents = none →
      (loadImagesFromS3 s listing sign now todayStart).error = none) ∧
    (∀ response contents, listing = .ok response →
      response.contents = some contents → contents.length = 0 →
      (loadImagesFromS3 s listing sign now todayStart).error = none) ∧
    (∀ response contents imageList, listing = .ok response →
      response.contents = some contents →
      signAll sign (contents.filter (fun item => isJpegKey item.key))
        = .ok imageList →
      (loadImagesFromS3 s listing sign now todayStart).error = none) := by
  refine ⟨rfl, ?_, ?_, ?_, ?_, ?_⟩
  · intro e he
    subst he
    rfl
  · intro response contents e hl hc hlen hs
    subst hl
    simp only [loadImagesFromS3, loadImagesFinish, hc, if_neg hlen, hs]
  · intro response hl hc
    subst hl
    simp only [loadImagesFromS3, loadImagesFinish, hc]
    rfl
  · intro response contents hl hc hlen
    subst hl
    simp only [loadImagesFromS3, loadImagesFinish, hc, if_pos hlen]
    rfl
  · intro response contents imageList hl hc hs
    subst hl
    by_cases hlen : contents.length = 0
    · simp only [loadImagesFromS3, loadImagesFinish, hc, if_pos hlen]
      rfl
    · simp only [loadImagesFromS3, loadImagesFinish, hc, if_neg hlen, hs]
      rfl

/-- C4 witness: the error-lifecycle theorem at concrete inputs — the
start of a sync from the errored state clears the error, a concrete
listing failure ends with the error set, and a concrete successful
cycle over one jpg object ends with the error cleared. -/
theorem c4_witness :
    (loadImagesBegin erroredState).error = none ∧
    (loadImagesFromS3 erroredState (.error "network failure")
        (fun k => .ok k) 0 0).error = some loadErrorMsg ∧
    (loadImagesFromS3 erroredState
        (.ok ⟨some [⟨"ok.jpg", 1, 1⟩], false, none⟩)
        (fun k => .ok k) 0 0).error = none :=
  ⟨(c4_error_lifecycle erroredState (.error "network failure")
      (fun k => .ok k) 0 0).1,
   (c4_error_lifecycle erroredState (.error "network failure")
      (fun k => .ok k) 0 0).2.1 "network failure" rfl,
   (c4_error_lifecycle erroredState
      (.ok ⟨some [⟨"ok.jpg", 1, 1⟩], false, none⟩)
      (fun k => .ok k) 0 0).2.2.2.2.2
     ⟨some [⟨"ok.jpg", 1, 1⟩], false, none⟩ [⟨"ok.jpg", 1, 1⟩]
     [mkImage "ok.jpg" ⟨"ok.jpg", 1, 1⟩] rfl rfl rfl⟩

/-! ### C5 -/

/-- A record stamped exactly at local midnight. -/
def midnightImg : Image :=
  { id := "m.jpg", key := "m.jpg", url := "u", name := "m.jpg",
    timestamp := 1000000, size := "1 B" }

/-- C5 counterexample: with local midnight at 1,000,000 ms, the record
stamped exactly at midnight is excluded from the today stat (the code
compares with a strict greater-than), while the at-or-after reading of
the spec counts it. -/
theorem c5_counterexample :
    (computeStats [midnightImg] 2000000 1000000).today = 0 ∧
    todayCountAtOrAfter [midnightImg] 1000000 = 1 := by
  constructor
  · rfl
  · rfl

/-- C5 amended: the today stat counts the records whose timestamp is
strictly after local midnight; adding the count of records stamped
exactly at midnight recovers the at-or-after count, so boundary records
are exactly the ones the stat misses. -/
theorem c5_today_counts_strictly_after (imgs : List Image)
    (now todayStart : Int) :
    (computeStats imgs now todayStart).today
      = (imgs.filter (fun img => todayStart < img.timestamp)).length ∧
    (computeStats imgs now todayStart).today
        + (imgs.filter (fun img => img.timestamp = todayStart)).length
      = todayCountAtOrAfter imgs todayStart := by
  refine ⟨rfl, ?_⟩
  show (imgs.filter (fun img => todayStart < img.timestamp)).length + _ = _
  unfold todayCountAtOrAfter
  induction imgs with
  | nil => rfl
  | cons a t ih =>
    simp only [List.filter_cons]
    by_cases h1 : todayStart < a.timestamp
    · rw [if_pos (by simp [h1]), if_neg (by simp; omega),
        if_pos (by simp; omega)]
      simp only [List.length_cons]
      omega
    · by_cases h2 : a.timestamp = todayStart
      · rw [if_neg (by simp [h1]), if_pos (by simp [h2]),
          if_pos (by simp; omega)]
        simp only [List.length_cons]
        omega
      · rw [if_neg (by simp [h1]), if_neg (by simp [h2]),
          if_neg (by simp; omega)]
        exact ih

/-! ### C6 -/

/-- C6: sync is atomic on failure.  When the listing call throws, and
when any signing call fails the Promise.all batch, the resulting state
keeps the previous collection and stats and surfaces the error message;
conversely any errored sync result left the collection and stats
untouched, so they are replaced only by a cycle that completes
successfully. -/
theorem c6_sync_atomic (s : AppState) (listing : Except String ListResponse)
    (sign : String → Except String String) (now todayStart : Int) :
    (∀ e, listing = .error e →
      (loadImagesFromS3 s listing sign now todayStart).images = s.images ∧
      (loadImagesFromS3 s listing sign now todayStart).stats = s.stats ∧
      (loadImagesFromS3 s listing sign now todayStart).error
        = some loadErrorMsg) ∧
    (∀ response contents e, listing = .ok response →
      response.contents = some contents → contents.length ≠ 0 →
      signAll sign (contents.filter (fun item => isJpegKey item.key))
        = .error e →
      (loadImagesFromS3 s listing sign now todayStart).images = s.images ∧
      (loadImagesFromS3 s listing sign now todayStart).stats = s.stats ∧
      (loadImagesFromS3 s listing sign now todayStart).error
        = some loadErrorMsg) ∧
    (∀ msg, (loadImagesFromS3 s listing sign now todayStart).error = some msg →
      (loadImagesFromS3 s listing sign now todayStart).images = s.images ∧
      (loadImagesFromS3 s listing sign now todayStart).stats = s.stats) := by
  refine ⟨?_, ?_, ?_⟩
  · intro e he
    subst he
    exact ⟨rfl, rfl, rfl⟩
  · intro response contents e hl hc hlen hs
    subst hl
    simp only [loadImagesFromS3, loadImagesFinish, hc, if_neg hlen, hs]
    refine ⟨?_, ?_, ?_⟩ <;> trivial
  · intro msg hmsg
    cases listing with
    | error e => exact ⟨rfl, rfl⟩
    | ok response =>
      simp only [loadImagesFromS3, loadImagesFinish] at hmsg ⊢
      cases hc : response.contents with
      | none => rw [hc] at hmsg; cases hmsg
      | some contents =>
        rw [hc] at hmsg
        dsimp only at hmsg ⊢
        by_cases hlen : contents.length = 0
        · rw [if_pos hlen] at hmsg
          cases hmsg
        · rw [if_neg hlen] at hmsg ⊢
          cases hs : signAll sign
              (contents.filter (fun item => isJpegKey item.key)) with
          | error e => exact ⟨rfl, rfl⟩
          | ok imageList =>
            rw [hs] at hmsg
            simp [loadImagesBegin] at hmsg

/-- C6 witness: the atomicity theorem applied to a concrete failing
listing call on the empty starting state. -/
theorem c6_witness :
    (loadImagesFromS3 emptyState (.error "timeout") (fun k => .ok k) 0 0).images
        = emptyState.images ∧
    (loadImagesFromS3 emptyState (.error "timeout") (fun k => .ok k) 0 0).stats
        = emptyState.stats ∧
    (loadImagesFromS3 emptyState (.error "timeout") (fun k => .ok k) 0 0).error
        = some loadErrorMsg :=
  (c6_sync_atomic emptyState (.error "timeout") (fun k => .ok k) 0 0).1
    "timeout" rfl

end S3Viewer

namespace S3Viewer

/-! ### C7 -/

/-- C7: optimistic single delete.  With the record present and record
identifiers unique (the data-model invariant) and the stats total in
step with the collection, a successful confirmed delete removes exactly
that record, drops stats.total by exactly 1, recomputes the stats over
the patched collection with the stats function of the sync path, and
clears the selection if it was the deleted record; a failed delete
leaves the whole state (collection, stats, error) unchanged. -/
theorem c7_optimistic_delete (s : AppState) (img : Image) (now todayStart : Int)
    (hmem : img ∈ s.images) (hnodup : (s.images.map Image.id).Nodup)
    (htotal : s.stats.total = s.images.length) :
    img ∉ (handleDelete s img true (.ok ()) now todayStart).images ∧
    (handleDelete s img true (.ok ()) now todayStart).images
      = s.images.filter (fun i => i.id ≠ img.id) ∧
    (∀ i ∈ s.images, i ≠ img →
      i ∈ (handleDelete s img true (.ok ()) now todayStart).images) ∧
    (handleDelete s img true (.ok ()) now todayStart).stats.total + 1
      = s.stats.total ∧
    (handleDelete s img true (.ok ()) now todayStart).stats
      = computeStats (handleDelete s img true (.ok ()) now todayStart).images
          now todayStart ∧
    (s.selectedImage = some img →
      (handleDelete s img true (.ok ()) now todayStart).selectedImage = none) ∧
    (∀ e, handleDelete s img true (.error e) now todayStart = s) := by
  refine ⟨?_, rfl, ?_, ?_, rfl, ?_, fun e => rfl⟩
  · intro hin
    have := List.of_mem_filter hin
    simp at this
  · intro i hi hne
    have hneid : i.id ≠ img.id := fun hid =>
      hne (List.inj_on_of_nodup_map hnodup hi hmem hid)
    exact List.mem_filter.mpr ⟨hi, by simpa using hneid⟩
  · show (s.images.filter (fun i => i.id ≠ img.id)).length + 1 = s.stats.total
    rw [htotal]
    exact length_filter_ne_id hmem hnodup
  · intro hsel
    show (match s.selectedImage with
      | some sel => if sel.id = img.id then none else some sel
      | none => none) = none
    rw [hsel]
    simp

/-- Two distinct fixture records within the same collection. -/
def imgOne : Image :=
  { id := "one.jpg", key := "one.jpg", url := "u1", name := "one.jpg",
    timestamp := 100, size := "1 B" }

/-- Second fixture record. -/
def imgTwo : Image :=
  { id := "two.jpg", key := "two.jpg", url := "u2", name := "two.jpg",
    timestamp := 200, size := "1 B" }

/-- A state holding the two fixture records with matching stats, with
imgOne selected. -/
def twoImgState : AppState :=
  ⟨[imgOne, imgTwo], some imgOne, ⟨2, 2, 2⟩, none, false⟩

/-- C7 witness: the optimistic-delete theorem applied to the concrete
two-record state, deleting imgOne. -/
theorem c7_witness :
    imgOne ∉ (handleDelete twoImgState imgOne true (.ok ()) 1000 0).images ∧
    (handleDelete twoImgState imgOne true (.ok ()) 1000 0).images
      = twoImgState.images.filter (fun i => i.id ≠ imgOne.id) ∧
    (∀ i ∈ twoImgState.images, i ≠ imgOne →
      i ∈ (handleDelete twoImgState imgOne true (.ok ()) 1000 0).images) ∧
    (handleDelete twoImgState imgOne true (.ok ()) 1000 0).stats.total + 1
      = twoImgState.stats.total ∧
    (handleDelete twoImgState imgOne true (.ok ()) 1000 0).stats
      = computeStats (handleDelete twoImgState imgOne true (.ok ()) 1000 0).images
          1000 0 ∧
    (twoImgState.selectedImage = some imgOne →
      (handleDelete twoImgState imgOne true (.ok ()) 1000 0).selectedImage
        = none) ∧
    (∀ e, handleDelete twoImgState imgOne true (.error e) 1000 0
      = twoImgState) :=
  c7_optimistic_delete twoImgState imgOne 1000 0 (by decide) (by decide)
    (by decide)

end S3Viewer

namespace S3Viewer

/-! ### C8 -/

/-- Fixture listing entry with an uppercase JPG key. -/
def objA : S3Object := ⟨"a.JPG", 5, 10⟩

/-- Fixture listing entry with a png key. -/
def objB : S3Object := ⟨"b.png", 5, 10⟩

/-- Fixture listing entry with a jpeg key. -/
def objC : S3Object := ⟨"c.jpeg", 5, 10⟩

/-- Fixture listing entry with no extension. -/
def objD : S3Object := ⟨"d", 5, 10⟩

/-- C8: for any listed object set the synced collection holds exactly
the objects whose lowercased key ends in .jpg or .jpeg, and everything
else is excluded silently: the keys of the published records are a
permutation of the keys passing the extension filter, the cycle ends
without an error state, and the example listing [a.JPG, b.png, c.jpeg,
d] yields exactly [a.JPG, c.jpeg]. -/
theorem c8_extension_filter (s : AppState) (contents : List S3Object)
    (urlOf : String → String) (now todayStart : Int) (tr : Bool)
    (tok : Option String) :
    ((loadImagesFromS3 s (.ok ⟨some contents, tr, tok⟩)
        (fun k => .ok (urlOf k)) now todayStart).images.map Image.key).Perm
      ((contents.filter (fun item => isJpegKey item.key)).map S3Object.key) ∧
    (loadImagesFromS3 s (.ok ⟨some contents, tr, tok⟩)
        (fun k => .ok (urlOf k)) now todayStart).error = none ∧
    ((loadImagesFromS3 emptyState (.ok ⟨some [objA, objB, objC, objD], false, none⟩)
        (fun k => .ok ("u-" ++ k)) 0 0).images.map Image.key)
      = ["a.JPG", "c.jpeg"] := by
  refine ⟨?_, ?_, by decide⟩
  · by_cases hlen : contents.length = 0
    · have hnil : contents = [] := List.length_eq_zero.mp hlen
      subst hnil
      simp [loadImagesFromS3, loadImagesFinish]
    · simp only [loadImagesFromS3, loadImagesFinish, if_neg hlen,
        signAll_ok_of_total]
      have hperm :=
        (List.perm_insertionSort (fun a b : Image => b.timestamp ≤ a.timestamp)
          ((contents.filter (fun item => isJpegKey item.key)).map
            (fun it => mkImage (urlOf it.key) it))).map Image.key
      rw [List.map_map] at hperm
      have hcomp :
          (Image.key ∘ fun it => mkImage (urlOf it.key) it) = S3Object.key := by
        funext it
        rfl
      rw [hcomp] at hperm
      exact hperm
  · by_cases hlen : contents.length = 0
    · have hnil : contents = [] := List.length_eq_zero.mp hlen
      subst hnil
      simp [loadImagesFromS3, loadImagesFinish, loadImagesBegin]
    · simp only [loadImagesFromS3, loadImagesFinish, if_neg hlen,
        signAll_ok_of_total]
      rfl

/-! ### C9 -/

/-- C9: the name projection is a pure function of the collection and
the locale ordering on the name field: for any total, transitive
comparison (the contract of localeCompare) the projection applied to
its own output is unchanged, the output is a permutation of the input
collection (which the code never mutates — it copies the array before
sorting), and it is sorted by the comparison on names. -/
theorem c9_name_sort_idempotent (lc : String → String → Prop)
    [DecidableRel lc]
    (htot : ∀ a b, lc a b ∨ lc b a)
    (htrans : ∀ a b c, lc a b → lc b c → lc a c)
    (now : Int) (imgs : List Image) :
    displayImages lc "name" "all" now (displayImages lc "name" "all" now imgs)
      = displayImages lc "name" "all" now imgs ∧
    (displayImages lc "name" "all" now imgs).Perm imgs ∧
    List.Sorted (fun a b : Image => lc a.name b.name)
      (displayImages lc "name" "all" now imgs) := by
  haveI : IsTotal Image (fun a b => lc a.name b.name) :=
    ⟨fun a b => htot a.name b.name⟩
  haveI : IsTrans Image (fun a b => lc a.name b.name) :=
    ⟨fun a b c => htrans a.name b.name c.name⟩
  have hd : ∀ l : List Image, displayImages lc "name" "all" now l
      = List.insertionSort (fun a b => lc a.name b.name) l := fun l => rfl
  have hsorted : List.Sorted (fun a b : Image => lc a.name b.name)
      (displayImages lc "name" "all" now imgs) := by
    rw [hd]
    exact List.sorted_insertionSort _ imgs
  refine ⟨?_, ?_, hsorted⟩
  · rw [hd (displayImages lc "name" "all" now imgs)]
    exact hsorted.insertionSort_eq
  · rw [hd]
    exact List.perm_insertionSort _ imgs

/-- C9 witness: the idempotence theorem at the lexicographic string
order (a concrete total transitive comparison) on the two-record
fixture collection. -/
theorem c9_witness :
    displayImages (fun a b : String => a ≤ b) "name" "all" 0
        (displayImages (fun a b : String => a ≤ b) "name" "all" 0
          [imgOne, imgTwo])
      = displayImages (fun a b : String => a ≤ b) "name" "all" 0
          [imgOne, imgTwo] ∧
    (displayImages (fun a b : String => a ≤ b) "name" "all" 0
        [imgOne, imgTwo]).Perm [imgOne, imgTwo] ∧
    List.Sorted (fun a b : Image => a.name ≤ b.name)
      (displayImages (fun a b : String => a ≤ b) "name" "all" 0
        [imgOne, imgTwo]) :=
  c9_name_sort_idempotent (fun a b => a ≤ b) (fun a b => le_total a b)
    (fun _ _ _ hab hbc => le_trans hab hbc) 0 [imgOne, imgTwo]

/-! ### C10 -/

/-- Fixture record created shortly before the sync instant. -/
def recA : Image :=
  { id := "a.jpg", key := "a.jpg", url := "u", name := "a.jpg",
    timestamp := 9999000, size := "1 B" }

/-- Second fixture record with the same age. -/
def recB : Image :=
  { id := "b.jpg", key := "b.jpg", url := "u", name := "b.jpg",
    timestamp := 9999000, size := "1 B" }

/-- Third fixture record with the same age. -/
def recC : Image :=
  { id := "c.jpg", key := "c.jpg", url := "u", name := "c.jpg",
    timestamp := 9999000, size := "1 B" }

/-- The state a sync at clock 10,000,000 publishes for the three
fixture records (all three inside the last-hour window at that
instant). -/
def syncedState : AppState :=
  ⟨[recA, recB, recC], none, computeStats [recA, recB, recC] 10000000 0,
    none, false⟩

/-- C10: a successful delete recomputes the stats over the patched
collection with the delete-time clock, not the last sync snapshot: in
general the published stats equal the sync-path stats function applied
to the patched collection at the fresh instant, and concretely, with
three records counted in lastHour at sync time, deleting one record two
hours later publishes lastHour = 0 — a decrease of 3, more than 1,
because the survivors aged out of the window. -/
theorem c10_delete_stats_fresh_clock :
    (∀ (s : AppState) (img : Image) (now todayStart : Int),
      (handleDelete s img true (.ok ()) now todayStart).stats
        = computeStats (s.images.filter (fun i => i.id ≠ img.id))
            now todayStart) ∧
    syncedState.stats.lastHour = 3 ∧
    (handleDelete syncedState recA true (.ok ()) 17200000 0).stats.lastHour
      = 0 :=
  ⟨fun s img now todayStart => rfl, by decide, by decide⟩

/-! ### C1 -/

/-- The only object on the first listing page of the fixture gateway. -/
def pageOneObj : S3Object := ⟨"a.jpg", 1000, 10⟩

/-- The object on the continuation page of the fixture gateway. -/
def pageTwoObj : S3Object := ⟨"b.jpg", 2000, 10⟩

/-- A gateway whose initial page is truncated and carries a
continuation token leading to a second page. -/
def pagedGateway : Gateway := fun tok =>
  match tok with
  | none => ⟨some [pageOneObj], true, some "page2"⟩
  | some _ => ⟨some [pageTwoObj], false, none⟩

/-- C1 counterexample: against the truncated fixture gateway the full
accumulated listing holds the keys a.jpg and b.jpg, but the sync
publishes only a.jpg — the continuation page is never requested, so
the collection is not the union of all pages. -/
theorem c1_counterexample :
    (allPages pagedGateway 2 none).map S3Object.key = ["a.jpg", "b.jpg"] ∧
    ((loadImagesFromS3 emptyState (.ok (pagedGateway none))
        (fun k => .ok ("u-" ++ k)) 0 0).images.map Image.key) = ["a.jpg"] := by
  refine ⟨by decide, by decide⟩

/-- C1 amended: sync issues exactly one listing request, with no
continuation token; every record a successful sync publishes comes from
an object on that first page (and passed the extension filter), so a
truncated listing is silently published incomplete. -/
theorem c1_first_page_only (s : AppState) (g : Gateway)
    (sign : String → Except String String) (now todayStart : Int)
    (img : Image)
    (herr : (loadImagesFromS3 s (.ok (g none)) sign now todayStart).error
      = none)
    (hmem : img ∈ (loadImagesFromS3 s (.ok (g none)) sign now todayStart).images) :
    ∃ item ∈ (g none).contents.getD [],
      item.key = img.key ∧ isJpegKey item.key = true := by
  rcases hg : g none with ⟨c, tr, tok⟩
  rw [hg] at herr hmem
  cases c with
  | none =>
    simp only [loadImagesFromS3, loadImagesFinish] at hmem
    cases hmem
  | some contents =>
    simp only [loadImagesFromS3, loadImagesFinish] at herr hmem
    by_cases hlen : contents.length = 0
    · rw [if_pos hlen] at hmem
      cases hmem
    · rw [if_neg hlen] at hmem herr
      cases hs : signAll sign (contents.filter (fun item => isJpegKey item.key)) with
      | error e =>
        rw [hs] at herr
        simp [loadImagesBegin] at herr
      | ok imageList =>
        rw [hs] at hmem
        simp only [sortNewestFirst] at hmem
        have hmem2 : img ∈ imageList :=
          (List.perm_insertionSort (fun a b : Image => b.timestamp ≤ a.timestamp)
            imageList).mem_iff.mp hmem
        obtain ⟨item, hit, url, hu, he⟩ := signAll_mem hs hmem2
        have hfil := List.mem_filter.mp hit
        refine ⟨item, hfil.1, ?_, hfil.2⟩
        rw [he]
        rfl

/-- C1 witness: the first-page theorem applied to the record the sync
publishes against the truncated fixture gateway. -/
theorem c1_witness :
    (loadImagesFromS3 emptyState (.ok (pagedGateway none))
        (fun k => .ok ("u-" ++ k)) 0 0).error = none ∧
    mkImage "u-a.jpg" pageOneObj ∈ (loadImagesFromS3 emptyState
        (.ok (pagedGateway none)) (fun k => .ok ("u-" ++ k)) 0 0).images ∧
    ∃ item ∈ (pagedGateway none).contents.getD [],
      item.key = (mkImage "u-a.jpg" pageOneObj).key ∧
      isJpegKey item.key = true :=
  ⟨by decide, by decide,
    c1_first_page_only emptyState pagedGateway (fun k => .ok ("u-" ++ k)) 0 0
      (mkImage "u-a.jpg" pageOneObj) (by decide) (by decide)⟩

end S3Viewer
